import Mathlib

/-!
Verification of the Loan & Trust Lifecycle Engine of the ICSS-Borrowing
equipment-lending application.

The development shallowly embeds the record store (Dexie tables) as lists of
records and the relevant UI handlers as pure state transformers on a `DB`
value.  Timestamps (ISO-8601 strings in the source) are modelled as integer
milliseconds since the epoch, which preserves the order relation that every
comparison in the source uses (`new Date(a) < new Date(b)`).  JavaScript
numbers are modelled as rationals; every arithmetic operation performed by the
engine (counting, `* 100`, `* 0.5`, `Math.round(x*10)/10`, `Math.max`) is
exact at the precision the specification talks about.

Source files embedded here:
 - `src/lib/db.ts` (`calculateTrustScore`),
 - `src/pages/captain/CaptainLayout.tsx` (`BorrowFlow.handleConfirm`,
   `AdminStudents.handleManualSubmit`, `handleFileImport`,
   `handleBlacklistSubmit`),
 - `src/components/StudentProfileModal.tsx` (`handleMarkReturned`,
   `handleDeleteLoan`),
 - `src/unnamed/part_000` (`AdminInventory.handleSubmit`),
 - `src/unnamed/part_001` (`AdminLayout.checkAtRiskStudents`).
-/

/-- Milliseconds since the Unix epoch; the order-faithful model of the ISO
timestamp strings stored by the application. -/
abbrev Timestamp := Int

/-- JavaScript `Math.round` on a (finite, non-negative) number: round half up. -/
def jsRound (q : ℚ) : ℤ := ⌊q + 1/2⌋

/-- `EquipmentItem.status` values, from the interface in `src/lib/db.ts`. -/
inductive EqStatus where
  | available
  | borrowed
  | reserved
  | repair
  | lost
  | damaged
deriving DecidableEq

/-- `Loan.status` values, from the interface in `src/lib/db.ts`. -/
inductive LoanStatus where
  | active
  | returned
  | overdue
deriving DecidableEq

/-- The `Student` record of `src/lib/db.ts`. -/
structure Student where
  id : String
  student_id : String
  full_name : String
  year_group : String
  class_name : Option String
  house : Option String
  email : Option String
  avatar_url : Option String
  trust_score : ℚ
  is_blacklisted : Bool
  blacklist_end_date : Option Timestamp
  blacklist_reason : Option String
  created_at : Timestamp
  updated_at : Timestamp
deriving DecidableEq

/-- The `EquipmentItem` record of `src/lib/db.ts`. -/
structure EquipmentItem where
  id : String
  item_id : String
  name : String
  category : String
  image_url : Option String
  location : Option String
  status : EqStatus
  condition_notes : Option String
  created_at : Timestamp
  updated_at : Timestamp
deriving DecidableEq

/-- The `Loan` record of `src/lib/db.ts`. -/
structure Loan where
  id : String
  student_id : String
  equipment_id : String
  borrowed_by_user_id : Option String
  borrowed_at : Timestamp
  due_at : Timestamp
  returned_at : Option Timestamp
  is_overdue : Bool
  status : LoanStatus
  created_at : Timestamp
deriving DecidableEq

/-- The `BlacklistEntry` record of `src/lib/db.ts`. -/
structure BlacklistEntry where
  id : String
  student_id : String
  blacklisted_by_user_id : Option String
  start_date : Timestamp
  end_date : Timestamp
  reason : String
  is_active : Bool
  created_at : Timestamp
deriving DecidableEq

/-- The record store: the four Dexie tables the lifecycle engine touches. -/
structure DB where
  students : List Student
  equipment : List EquipmentItem
  loans : List Loan
  blacklistEntries : List BlacklistEntry
deriving DecidableEq

/-- The query filter of `calculateTrustScore`
(`where student_id equals studentId and returned_at !== null`). -/
def isReturnedLoanOf (sid : String) (l : Loan) : Bool :=
  decide (l.student_id = sid) && l.returned_at.isSome

/-- The on-time test of `calculateTrustScore`
(`loan.returned_at && new Date(loan.returned_at) <= new Date(loan.due_at)`). -/
def isOnTime (l : Loan) : Bool :=
  match l.returned_at with
  | some r => decide (r ≤ l.due_at)
  | none => false

/-- `calculateTrustScore` from `src/lib/db.ts` lines 163-180: over the
student's returned loans, `50.0` when there are none, otherwise
`Math.round((onTime / returned) * 100 * 10) / 10`. -/
def calculateTrustScore (loans : List Loan) (studentId : String) : ℚ :=
  let returned := loans.filter (isReturnedLoanOf studentId)
  if returned.length = 0 then 50
  else
    let onTimeReturns := (returned.filter isOnTime).length
    let score : ℚ := (onTimeReturns : ℚ) / (returned.length : ℚ) * 100
    (jsRound (score * 10) : ℚ) / 10

/-- Number of loans of `sid` with a non-null `returned_at`. -/
def returnedCount (loans : List Loan) (sid : String) : Nat :=
  (loans.filter (isReturnedLoanOf sid)).length

/-- Number of returned loans of `sid` with `returned_at <= due_at`. -/
def onTimeCount (loans : List Loan) (sid : String) : Nat :=
  ((loans.filter (isReturnedLoanOf sid)).filter isOnTime).length

/-- The trust-score arithmetic as a function of the two counts. -/
def trustFormula (onTime total : Nat) : ℚ :=
  if total = 0 then 50
  else (jsRound ((onTime : ℚ) / (total : ℚ) * 100 * 10) : ℚ) / 10

theorem calculateTrustScore_eq_trustFormula (loans : List Loan) (sid : String) :
    calculateTrustScore loans sid = trustFormula (onTimeCount loans sid) (returnedCount loans sid) :=
  rfl

/-- The trust-score contract as the specification words it: `50.0` with no
returned loans, otherwise `100 * (count(on_time) / count(returned))` rounded
to one decimal place. -/
def specTrustScore (loans : List Loan) (sid : String) : ℚ :=
  let rets := loans.countP (isReturnedLoanOf sid)
  if rets = 0 then 50
  else
    let onTime := loans.countP (fun l => isReturnedLoanOf sid l && isOnTime l)
    (jsRound (100 * ((onTime : ℚ) / (rets : ℚ)) * 10) : ℚ) / 10

/-- One equipment id selected in the borrow flow, paired with the UUID that
`generateUUID()` produces for its loan record. -/
structure BorrowItem where
  loanId : String
  equipmentId : String
deriving DecidableEq

/-- The `db.loans.add(...)` await of the `for (const equipmentId of
selectedEquipment)` loop of `BorrowFlow.handleConfirm` (`CaptainLayout.tsx`
lines 249-260). -/
def addLoanWrite (studentId : String) (userId : Option String)
    (borrowedAt dueAt : Timestamp) (item : BorrowItem) (db : DB) : DB :=
  { db with
    loans := db.loans ++ [{
      id := item.loanId
      student_id := studentId
      equipment_id := item.equipmentId
      borrowed_by_user_id := userId
      borrowed_at := borrowedAt
      due_at := dueAt
      returned_at := none
      is_overdue := false
      status := .active
      created_at := borrowedAt }] }

/-- The `db.equipment.update(equipmentId, { status: borrowed })` await of the
loop body (`CaptainLayout.tsx` lines 262-265). -/
def markBorrowedWrite (borrowedAt : Timestamp) (item : BorrowItem) (db : DB) : DB :=
  { db with equipment := db.equipment.map fun e =>
      if e.id = item.equipmentId then { e with status := .borrowed, updated_at := borrowedAt }
      else e }

/-- One iteration of the loop: the loan insert followed by the equipment
update, two separate awaits. -/
def borrowStep (studentId : String) (userId : Option String)
    (borrowedAt dueAt : Timestamp) (db : DB) (item : BorrowItem) : DB :=
  markBorrowedWrite borrowedAt item (addLoanWrite studentId userId borrowedAt dueAt item db)

/-- `BorrowFlow.handleConfirm` (`CaptainLayout.tsx` lines 239-273): for each
selected equipment id, create a loan due `durationMinutes` after `now` and mark
the equipment `borrowed`.  Each write is its own await; there is no
transaction. -/
def handleConfirm (db : DB) (studentId : String) (userId : Option String)
    (items : List BorrowItem) (durationMinutes : Int) (now : Timestamp) : DB :=
  items.foldl (borrowStep studentId userId now (now + durationMinutes * 60000)) db

/-- The loan fields written by `handleMarkReturned`
(`returned_at: now, status: returned, is_overdue: false`). -/
def closeLoan (now : Timestamp) (l : Loan) : Loan :=
  { l with returned_at := some now, status := .returned, is_overdue := false }

/-- The equipment fields written when a loan is returned or deleted
(`status: available, updated_at: now`). -/
def markAvailable (now : Timestamp) (e : EquipmentItem) : EquipmentItem :=
  { e with status := .available, updated_at := now }

/-- The student fields written when a trust score is persisted
(`trust_score, updated_at`). -/
def persistScore (score : ℚ) (now : Timestamp) (s : Student) : Student :=
  { s with trust_score := score, updated_at := now }

/-- `StudentProfileModal.handleMarkReturned` (lines 176-210): close the loan,
look the (now updated) loan up again and set its equipment to `available`,
then recompute and persist the student's trust score.  The student update
happens whether or not a loan with `loanId` exists. -/
def handleMarkReturned (db : DB) (loanId studentId : String) (now : Timestamp) : DB :=
  let loans1 := db.loans.map fun l => if l.id = loanId then closeLoan now l else l
  let equipment1 :=
    match loans1.find? (fun l => decide (l.id = loanId)) with
    | some loan => db.equipment.map fun e =>
        if e.id = loan.equipment_id then markAvailable now e else e
    | none => db.equipment
  { db with
    loans := loans1
    equipment := equipment1
    students := db.students.map fun s =>
      if s.id = studentId then persistScore (calculateTrustScore loans1 studentId) now s
      else s }

/-- `StudentProfileModal.handleDeleteLoan` (lines 212-243): if the loan exists
and is still open, revert its equipment to `available`; hard-delete the loan;
recompute and persist the student's trust score. -/
def handleDeleteLoan (db : DB) (loanId studentId : String) (now : Timestamp) : DB :=
  let equipment1 :=
    match db.loans.find? (fun l => decide (l.id = loanId)) with
    | some loan =>
        if loan.returned_at = none then
          db.equipment.map fun e =>
            if e.id = loan.equipment_id then markAvailable now e else e
        else db.equipment
    | none => db.equipment
  let loans1 := db.loans.filter fun l => !decide (l.id = loanId)
  { db with
    equipment := equipment1
    loans := loans1
    students := db.students.map fun s =>
      if s.id = studentId then persistScore (calculateTrustScore loans1 studentId) now s
      else s }

/-- The blacklist form of `AdminStudents` (`CaptainLayout.tsx` lines 619-623). -/
structure BlacklistForm where
  is_blacklisted : Bool
  blacklist_end_date : Timestamp
  blacklist_reason : String
deriving DecidableEq

/-- `AdminStudents.handleBlacklistSubmit` (`CaptainLayout.tsx` lines 911-961):
update the student's blacklist fields (halving `trust_score` only when the
form suspends a student whose snapshot `sel` was not yet suspended); when the
form suspends, always add a fresh `is_active` blacklist entry; when it
un-suspends a suspended student, deactivate all their active entries.  The
whole body runs inside one `db.transaction`. -/
def handleBlacklistSubmit (db : DB) (sel : Student) (form : BlacklistForm)
    (entryId : String) (now : Timestamp) : DB :=
  let isB := form.is_blacklisted
  let upd : Student → Student := fun s =>
    let s1 := { s with
      is_blacklisted := isB
      blacklist_end_date := if isB then some form.blacklist_end_date else none
      blacklist_reason := if isB then some form.blacklist_reason else none
      updated_at := now }
    if isB && !sel.is_blacklisted then
      { s1 with trust_score := max 0 (sel.trust_score * (1/2)) }
    else s1
  let students1 := db.students.map fun s => if s.id = sel.id then upd s else s
  let entries1 :=
    if isB then
      db.blacklistEntries ++ [{
        id := entryId
        student_id := sel.id
        blacklisted_by_user_id := none
        start_date := now
        end_date := form.blacklist_end_date
        reason := form.blacklist_reason
        is_active := true
        created_at := now }]
    else if sel.is_blacklisted then
      db.blacklistEntries.map fun e =>
        if e.student_id = sel.id ∧ e.is_active then { e with is_active := false } else e
    else db.blacklistEntries
  { db with students := students1, blacklistEntries := entries1 }

/-- The add/edit form of `AdminInventory` (`part_000` lines 22-28). -/
structure EquipmentForm where
  item_id : String
  name : String
  category : String
  status : EqStatus
  condition_notes : String
deriving DecidableEq

/-- `AdminInventory.handleSubmit` (`part_000` lines 133-188): editing spreads
the whole form (status included) over the existing record; creating first
checks `if (!imageUrl) { ...; return; }` (lines 154-158) — with a null image
nothing is written — and otherwise appends a new record with the form's
status. -/
def equipmentSubmit (db : DB) (editing : Option EquipmentItem) (form : EquipmentForm)
    (newId : String) (imageUrl : Option String) (now : Timestamp) : DB :=
  match editing with
  | some item =>
      { db with equipment := db.equipment.map fun e =>
          if e.id = item.id then
            { e with
              item_id := form.item_id
              name := form.name
              category := form.category
              status := form.status
              condition_notes := some form.condition_notes
              image_url := imageUrl
              updated_at := now }
          else e }
  | none =>
      match imageUrl with
      | none => db
      | some url =>
          { db with equipment := db.equipment ++ [{
              id := newId
              item_id := form.item_id
              name := form.name
              category := form.category
              image_url := some url
              location := none
              status := form.status
              condition_notes := if form.condition_notes = "" then none
                else some form.condition_notes
              created_at := now
              updated_at := now }] }

/-- `AdminStudents.handleManualSubmit` (`CaptainLayout.tsx` lines 702-739):
manual student creation; the new record is stored with `trust_score: 100`. -/
def handleManualSubmit (db : DB) (newId studentIdCode fullName className : String)
    (now : Timestamp) : DB :=
  { db with students := db.students ++ [{
      id := newId
      student_id := studentIdCode
      full_name := fullName
      class_name := some className
      year_group := "Year 7"
      house := none
      email := none
      avatar_url := none
      trust_score := 100
      is_blacklisted := false
      blacklist_end_date := none
      blacklist_reason := none
      created_at := now
      updated_at := now }] }

/-- A parsed CSV/Excel row of `AdminStudents.handleFileImport` after the
name/class/house extraction (file parsing itself is an external collaborator). -/
structure ImportRow where
  full_name : String
  class_name : String
  house : Option String
deriving DecidableEq

/-- The record built for one import row (`CaptainLayout.tsx` lines 837-852);
`newId` and `studentIdCode` stand for the generated UUID and `STU...` code.
The new record is stored with `trust_score: 100`. -/
def importedStudent (row : ImportRow) (newId studentIdCode : String)
    (now : Timestamp) : Student :=
  { id := newId
    student_id := studentIdCode
    full_name := row.full_name
    class_name := some row.class_name
    year_group := if row.class_name = "" then "Year 7" else row.class_name
    house := row.house
    email := none
    avatar_url := none
    trust_score := 100
    is_blacklisted := false
    blacklist_end_date := none
    blacklist_reason := none
    created_at := now
    updated_at := now }

/-- `AdminStudents.handleFileImport` (`CaptainLayout.tsx` lines 741-866) after
parsing: `bulkAdd` of the mapped rows, each paired with its generated ids. -/
def handleFileImport (db : DB) (rows : List (ImportRow × String × String))
    (now : Timestamp) : DB :=
  { db with students := db.students ++ rows.map fun r => importedStudent r.1 r.2.1 r.2.2 now }

/-- The lazy-expiry test of `AdminLayout.checkAtRiskStudents` (`part_001`
lines 85-86): blacklisted, with an end date that has passed. -/
def expiredBlacklist (now : Timestamp) (s : Student) : Bool :=
  s.is_blacklisted &&
    match s.blacklist_end_date with
    | some d => decide (d < now)
    | none => false

/-- The lazy-expiry pass of `AdminLayout.checkAtRiskStudents` (`part_001`
lines 82-95): clear the three blacklist fields of every student whose
suspension end date has passed.  Blacklist entries are not touched. -/
def lazyExpire (db : DB) (now : Timestamp) : DB :=
  { db with students := db.students.map fun s =>
      if expiredBlacklist now s then
        { s with
          is_blacklisted := false
          blacklist_end_date := none
          blacklist_reason := none
          updated_at := now }
      else s }

/-- Loans of one student (`where student_id equals student.id`). -/
def studentLoans (loans : List Loan) (sid : String) : List Loan :=
  loans.filter fun l => decide (l.student_id = sid)

/-- Blacklist entries of one student. -/
def studentEntries (entries : List BlacklistEntry) (sid : String) : List BlacklistEntry :=
  entries.filter fun e => decide (e.student_id = sid)

/-- Maximum of a list of timestamps, seeded with the head (the head of a
descending sort), and the epoch for the empty list. -/
def maxFromHead (ds : List Timestamp) : Timestamp :=
  match ds with
  | [] => 0
  | d :: t => t.foldl max d

/-- `end_date` of the most recent inactive blacklist entry — `part_001` lines
115-123 sort the inactive entries by `end_date` descending and take the first,
defaulting to `new Date(0)` (the epoch) when none exists.  Sorting descending
and taking the head is the maximum of the nonempty list. -/
def lastSuspensionEnd (entries : List BlacklistEntry) (sid : String) : Timestamp :=
  let inactive := (studentEntries entries sid).filter fun e => e.is_active = false
  maxFromHead (inactive.map (·.end_date))

/-- `lateReturnsSince` of `part_001` lines 125-129: returned loans of the
student that came back after their due date and after the last suspension's
end date. -/
def lateReturnsSinceLastSuspension (db : DB) (sid : String) : Nat :=
  let cutoff := lastSuspensionEnd db.blacklistEntries sid
  ((studentLoans db.loans sid).filter fun l =>
    match l.returned_at with
    | some r => decide (l.due_at < r) && decide (cutoff < r)
    | none => false).length

/-- `suspensionCount` of `part_001` lines 131-134: all blacklist entries ever
created for the student, active or inactive. -/
def suspensionCount (db : DB) (sid : String) : Nat :=
  (studentEntries db.blacklistEntries sid).length

/-- `warningThreshold` of `part_001` line 136. -/
def warningThreshold (db : DB) (sid : String) : Nat :=
  if suspensionCount db sid > 0 then 1 else 3

/-- The at-risk condition of `part_001` line 138
(`lateReturnsSince >= warningThreshold`). -/
def atRiskFlag (db : DB) (sid : String) : Bool :=
  decide (warningThreshold db sid ≤ lateReturnsSinceLastSuspension db sid)

/-- A keyed map-update (`table.update(id, fields)`) leaves a list untouched
when no element carries the key. -/
theorem map_update_id {α : Type} (key : α → String) (k : String) (f : α → α)
    (l : List α) (h : ∀ x ∈ l, key x ≠ k) :
    (l.map fun x => if key x = k then f x else x) = l := by
  have h2 : (l.map fun x => if key x = k then f x else x) = l.map id :=
    List.map_eq_map_iff.mpr fun a ha => by simp [h a ha]
  simpa using h2

/-- Looking a key up after a keyed map-update that preserves keys finds the
updated image of whatever the lookup found before. -/
theorem find?_map_update {α : Type} (key : α → String) (k : String) (f : α → α)
    (hf : ∀ a, key (f a) = key a) (l : List α) :
    ((l.map fun x => if key x = k then f x else x).find? fun x => decide (key x = k))
      = (l.find? fun x => decide (key x = k)).map f := by
  induction l with
  | nil => rfl
  | cons a l ih =>
    by_cases h : key a = k
    · simp [List.find?_cons, h, hf]
    · simp [List.find?_cons, h, ih]

/-- Splitting a `countP` along a second test. -/
theorem countP_split {α : Type} (p q : α → Bool) (l : List α) :
    l.countP p = l.countP (fun x => p x && q x) + l.countP fun x => p x && !q x := by
  induction l with
  | nil => rfl
  | cons a l ih =>
    simp only [List.countP_cons, ih]
    cases hp : p a <;> cases hq : q a <;> simp [hp, hq] <;> omega

/-- In a list with pairwise-distinct keys, the elements that both satisfy `p`
and carry the key `k` of a member `a` number one when `p a` and zero
otherwise. -/
theorem countP_key_unique {α : Type} (key : α → String) (k : String) (p : α → Bool)
    (l : List α) (hnd : (l.map key).Nodup) (a : α) (ha : a ∈ l) (hk : key a = k) :
    (l.countP fun x => p x && decide (key x = k)) = if p a then 1 else 0 := by
  induction l with
  | nil => cases ha
  | cons b l ih =>
    rw [List.map_cons, List.nodup_cons] at hnd
    rcases List.mem_cons.mp ha with rfl | ha2
    · have h0 : (l.countP fun x => p x && decide (key x = k)) = 0 := by
        rw [List.countP_eq_zero]
        intro x hx
        simp only [Bool.and_eq_true, decide_eq_true_eq, not_and]
        intro _ hkey
        exact hnd.1 (hk ▸ hkey ▸ List.mem_map_of_mem key hx)
      rw [List.countP_cons, h0, hk]
      cases hp : p a <;> simp [hp]
    · have hbk : ¬ key b = k := fun hbk =>
        hnd.1 (hbk ▸ hk ▸ List.mem_map_of_mem key ha2)
      rw [List.countP_cons, ih hnd.2 ha2]
      simp [hbk]

/-- Effect of a keyed map-update on `countP`, when the updated key belongs to
exactly one member `a`: the count loses `a`'s contribution and gains the
contribution of its image. -/
theorem countP_map_update {α : Type} (key : α → String) (k : String) (f : α → α) (p : α → Bool)
    (l : List α) (hnd : (l.map key).Nodup) (a : α) (ha : a ∈ l) (hk : key a = k) :
    ((l.map fun x => if key x = k then f x else x).countP p)
      = l.countP p - (if p a then 1 else 0) + (if p (f a) then 1 else 0) := by
  induction l with
  | nil => cases ha
  | cons b l ih =>
    rw [List.map_cons, List.nodup_cons] at hnd
    rcases List.mem_cons.mp ha with rfl | ha2
    · have htail : ∀ x ∈ l, key x ≠ k := fun x hx hkey =>
        hnd.1 (hk ▸ hkey ▸ List.mem_map_of_mem key hx)
      rw [List.map_cons, if_pos hk, map_update_id key k f l htail,
        List.countP_cons, List.countP_cons]
      split_ifs <;> omega
    · have hbk : ¬ key b = k := fun hbk =>
        hnd.1 (hbk ▸ hk ▸ List.mem_map_of_mem key ha2)
      have hcnt : (if p a then 1 else 0) ≤ l.countP p := by
        cases hp : p a
        · simp
        · simpa using List.countP_pos_iff.mpr ⟨a, ha2, hp⟩
      rw [List.map_cons, if_neg hbk, List.countP_cons, List.countP_cons, ih hnd.2 ha2]
      split_ifs at hcnt ⊢ <;> omega

/-- Effect of a keyed deletion (`table.delete(id)`) on `countP`, when the
deleted key belongs to exactly one member `a`. -/
theorem countP_filter_key_ne {α : Type} (key : α → String) (k : String) (p : α → Bool)
    (l : List α) (hnd : (l.map key).Nodup) (a : α) (ha : a ∈ l) (hk : key a = k) :
    ((l.filter fun x => !decide (key x = k)).countP p)
      = l.countP p - (if p a then 1 else 0) := by
  induction l with
  | nil => cases ha
  | cons b l ih =>
    rw [List.map_cons, List.nodup_cons] at hnd
    rcases List.mem_cons.mp ha with rfl | ha2
    · have htail : l.filter (fun x => !decide (key x = k)) = l := by
        rw [List.filter_eq_self]
        intro x hx
        simp only [Bool.not_eq_eq_eq_not, Bool.not_true, decide_eq_false_iff_not]
        intro hkey
        exact hnd.1 (hk ▸ hkey ▸ List.mem_map_of_mem key hx)
      rw [List.filter_cons, List.countP_cons]
      have hcond : (!decide (key a = k)) = false := by simp [hk]
      rw [hcond, if_neg (by simp), htail]
      cases hp : p a <;> simp [hp]
    · have hbk : ¬ key b = k := fun hbk =>
        hnd.1 (hbk ▸ hk ▸ List.mem_map_of_mem key ha2)
      have hcnt : (if p a then 1 else 0) ≤ l.countP p := by
        cases hp : p a
        · simp
        · simpa using List.countP_pos_iff.mpr ⟨a, ha2, hp⟩
      rw [List.filter_cons, if_pos (by simp [hbk]), List.countP_cons, List.countP_cons,
        ih hnd.2 ha2]
      split_ifs at hcnt ⊢ <;> omega

/-- `Math.round` of a non-negative argument is non-negative. -/
theorem jsRound_nonneg {q : ℚ} (h : 0 ≤ q) : 0 ≤ jsRound q :=
  Int.le_floor.mpr (by push_cast; linarith)

/-- `Math.round` stays below an integer bound that dominates the argument. -/
theorem jsRound_le {q : ℚ} {b : ℤ} (h : q + 1/2 < b + 1) : jsRound q ≤ b := by
  unfold jsRound
  have h2 := Int.floor_lt.mpr (show q + 1/2 < ((b + 1 : ℤ) : ℚ) by push_cast; linarith)
  omega

/-- The rounded on-time ratio lies between 0 and 100 whenever the on-time
count does not exceed the returned count. -/
theorem trustFormula_bounds (n d : Nat) (h : n ≤ d) :
    0 ≤ trustFormula n d ∧ trustFormula n d ≤ 100 := by
  unfold trustFormula
  split_ifs with hd
  · norm_num
  · have hd0 : (0:ℚ) < d := by
      have : 0 < d := Nat.pos_of_ne_zero hd
      exact_mod_cast this
    have hratio1 : (n:ℚ) / d ≤ 1 := by
      rw [div_le_one hd0]
      exact_mod_cast h
    have hratio0 : 0 ≤ (n:ℚ) / d := by positivity
    have harg0 : (0:ℚ) ≤ (n:ℚ) / d * 100 * 10 := by positivity
    have harg1 : (n:ℚ) / d * 100 * 10 ≤ 1000 := by nlinarith
    have hlow : (0:ℤ) ≤ jsRound ((n:ℚ) / d * 100 * 10) := jsRound_nonneg harg0
    have hhigh : jsRound ((n:ℚ) / d * 100 * 10) ≤ 1000 := jsRound_le (by norm_num; linarith)
    constructor
    · apply div_nonneg _ (by norm_num : (0:ℚ) ≤ 10)
      exact_mod_cast hlow
    · rw [div_le_iff₀ (by norm_num : (0:ℚ) < 10)]
      calc (jsRound ((n:ℚ) / d * 100 * 10) : ℚ) ≤ (1000 : ℤ) := by exact_mod_cast hhigh
        _ = 100 * 10 := by norm_num

/-- The count of loans that are on time among the returned ones never exceeds
the count of returned ones. -/
theorem onTimeCount_le_returnedCount (loans : List Loan) (sid : String) :
    onTimeCount loans sid ≤ returnedCount loans sid :=
  List.length_filter_le _ _

theorem spec_eq_trustFormula (loans : List Loan) (sid : String) :
    specTrustScore loans sid = trustFormula (onTimeCount loans sid) (returnedCount loans sid) := by
  have hret : loans.countP (isReturnedLoanOf sid) = returnedCount loans sid :=
    List.countP_eq_length_filter _ _
  have honp : (loans.countP fun l => isReturnedLoanOf sid l && isOnTime l)
      = onTimeCount loans sid := by
    have h1 : (loans.countP fun l => isReturnedLoanOf sid l && isOnTime l)
        = loans.countP fun l => isOnTime l && isReturnedLoanOf sid l :=
      List.countP_congr fun a _ => by rw [Bool.and_comm]
    rw [h1, ← List.countP_filter, List.countP_eq_length_filter]
    rfl
  simp only [specTrustScore, trustFormula, hret, honp]
  split_ifs with h
  · rfl
  · congr 2
    ring_nf

theorem calculateTrustScore_eq_spec (loans : List Loan) (sid : String) :
    calculateTrustScore loans sid = specTrustScore loans sid := by
  rw [calculateTrustScore_eq_trustFormula, spec_eq_trustFormula]

/-- Three returned loans of student `S1`: two on time, one late. -/
def threeLoanSample : List Loan :=
  [{ id := "L1", student_id := "S1", equipment_id := "E1", borrowed_by_user_id := none,
     borrowed_at := 0, due_at := 100, returned_at := some 50, is_overdue := false,
     status := .returned, created_at := 0 },
   { id := "L2", student_id := "S1", equipment_id := "E2", borrowed_by_user_id := none,
     borrowed_at := 0, due_at := 100, returned_at := some 100, is_overdue := false,
     status := .returned, created_at := 0 },
   { id := "L3", student_id := "S1", equipment_id := "E3", borrowed_by_user_id := none,
     borrowed_at := 0, due_at := 100, returned_at := some 150, is_overdue := false,
     status := .returned, created_at := 0 }]

/-- C4.  `computeTrustScore` agrees with the reference definition (50.0 with
no returned loans, otherwise `100 * onTime / returned` rounded to one decimal
place), always lies in `[0, 100]`, and returns `66.7` for a student with
exactly 3 returned loans of which 2 are on time. -/
theorem c4_trust_score_formula :
    (∀ loans sid, calculateTrustScore loans sid = specTrustScore loans sid) ∧
    (∀ loans sid, 0 ≤ calculateTrustScore loans sid ∧ calculateTrustScore loans sid ≤ 100) ∧
    calculateTrustScore threeLoanSample "S1" = 667 / 10 := by
  refine ⟨calculateTrustScore_eq_spec, fun loans sid => ?_, ?_⟩
  · rw [calculateTrustScore_eq_trustFormula]
    exact trustFormula_bounds _ _ (onTimeCount_le_returnedCount loans sid)
  · norm_num [calculateTrustScore, threeLoanSample, isReturnedLoanOf, isOnTime, jsRound,
      List.filter]

/-- The empty record store. -/
def dbEmpty : DB := { students := [], equipment := [], loans := [], blacklistEntries := [] }

/-- C5 counterexample: the claim says a newly created student is stored with
the neutral default `trust_score == 50.0`, but `handleManualSubmit` stores the
new student with `trust_score: 100` although that student has zero returned
loans (no loans at all). -/
theorem c5_counterexample :
    ((handleManualSubmit dbEmpty "S1" "STU000001" "John Smith" "7A" 0).students.map
        Student.trust_score) = [100] ∧
    (handleManualSubmit dbEmpty "S1" "STU000001" "John Smith" "7A" 0).loans = [] ∧
    (100 : ℚ) ≠ 50 :=
  ⟨rfl, rfl, by norm_num⟩

/-- C5 (amended).  Newly created students — manual entry and bulk import alike
— are stored with `trust_score = 100`, not 50; the computed
`calculateTrustScore` of a student with zero returned loans is the neutral
default `50.0`, and the stored value only becomes 50 once some operation
persists a recompute. -/
theorem c5_new_student_scores :
    (∀ db newId code nm cls now,
      (handleManualSubmit db newId code nm cls now).students.map Student.trust_score
        = db.students.map Student.trust_score ++ [100]) ∧
    (∀ db (rows : List (ImportRow × String × String)) now,
      (handleFileImport db rows now).students.map Student.trust_score
        = db.students.map Student.trust_score ++ rows.map fun _ => (100 : ℚ)) ∧
    (∀ loans sid, returnedCount loans sid = 0 → calculateTrustScore loans sid = 50) := by
  refine ⟨fun db newId code nm cls now => by simp [handleManualSubmit],
    fun db rows now => by
      simp only [handleFileImport, List.map_append, List.map_map]
      exact congrArg _ (List.map_eq_map_iff.mpr fun r _ => rfl),
    fun loans sid h => ?_⟩
  rw [calculateTrustScore_eq_trustFormula, h]
  simp [trustFormula]

/-- Witness for C5's amended theorem at a concrete input: a student with no
loans at all has zero returned loans and computed score 50. -/
theorem c5_new_student_scores_witness :
    returnedCount [] "S1" = 0 ∧ calculateTrustScore [] "S1" = 50 :=
  ⟨rfl, c5_new_student_scores.2.2 [] "S1" rfl⟩

/-- Where a student record ends up after `handleBlacklistSubmit`: a record of
the submitted student in the result comes from a stored record with the same
id, carries the form's blacklist flag, and carries either the halved snapshot
score (when the form suspends a not-yet-suspended snapshot) or its stored
score unchanged. -/
theorem blacklistSubmit_student_mem (db : DB) (sel : Student) (form : BlacklistForm)
    (eId : String) (now : Timestamp) (y : Student)
    (hy : y ∈ (handleBlacklistSubmit db sel form eId now).students) (hyk : y.id = sel.id) :
    ∃ x ∈ db.students, x.id = sel.id ∧
      y.is_blacklisted = form.is_blacklisted ∧
      y.trust_score = (if form.is_blacklisted && !sel.is_blacklisted
        then max 0 (sel.trust_score * (1/2)) else x.trust_score) := by
  simp only [handleBlacklistSubmit, List.mem_map] at hy
  obtain ⟨x, hx, hfx⟩ := hy
  by_cases h : x.id = sel.id
  · refine ⟨x, hx, h, ?_, ?_⟩ <;> rw [← hfx] <;>
      by_cases hpen : (form.is_blacklisted && !sel.is_blacklisted) = true <;>
        simp [h, hpen]
  · rw [← hfx, if_neg h] at hyk
    exact absurd hyk h

/-- C6.  The `max(0, old * 0.5)` trust penalty of `handleBlacklistSubmit` is
applied exactly on the transition from not-suspended to suspended: saving the
suspension of an already-suspended student changes nobody's trust score, and
suspending the same student twice in a row (the second call seeing the stored,
now suspended, record) leaves the score halved exactly once. -/
theorem c6_suspension_penalty_once :
    (∀ db sel form eId now, sel.is_blacklisted = true → form.is_blacklisted = true →
      (handleBlacklistSubmit db sel form eId now).students.map Student.trust_score
        = db.students.map Student.trust_score) ∧
    (∀ db s0 form1 form2 e1 e2 t1 t2 s1,
      s0.is_blacklisted = false → form1.is_blacklisted = true → form2.is_blacklisted = true →
      ((handleBlacklistSubmit db s0 form1 e1 t1).students.find? fun s =>
          decide (s.id = s0.id)) = some s1 →
      ∀ s2 ∈ (handleBlacklistSubmit (handleBlacklistSubmit db s0 form1 e1 t1)
          s1 form2 e2 t2).students,
        s2.id = s0.id → s2.trust_score = max 0 (s0.trust_score * (1/2))) := by
  constructor
  · intro db sel form eId now h1 h2
    simp only [handleBlacklistSubmit, List.map_map]
    refine List.map_eq_map_iff.mpr fun s _ => ?_
    by_cases hid : s.id = sel.id <;> simp [hid, h1, h2]
  · intro db s0 form1 form2 e1 e2 t1 t2 s1 h0 hb1 hb2 hfind s2 hs2 hid2
    have hs1id : s1.id = s0.id := by
      have := List.find?_some hfind
      simpa using this
    have hs1mem := List.mem_of_find?_eq_some hfind
    obtain ⟨v, _, _, hs1black, hs1trust⟩ :=
      blacklistSubmit_student_mem db s0 form1 e1 t1 s1 hs1mem hs1id
    rw [hb1] at hs1black
    rw [h0, hb1] at hs1trust
    simp at hs1trust
    obtain ⟨u, hu, huid, _, hs2trust⟩ :=
      blacklistSubmit_student_mem _ s1 form2 e2 t2 s2 hs2 (hid2.trans hs1id.symm)
    rw [hb2, hs1black] at hs2trust
    simp at hs2trust
    obtain ⟨w, _, _, _, hutrust⟩ :=
      blacklistSubmit_student_mem db s0 form1 e1 t1 u hu (huid.trans hs1id)
    rw [h0, hb1] at hutrust
    simp at hutrust
    rw [hs2trust, hutrust]
    simp [max_def]

/-- A not-yet-suspended student fixture. -/
def stuW : Student :=
  { id := "S1", student_id := "STU1", full_name := "Ada", year_group := "Year 7",
    class_name := some "7A", house := none, email := none, avatar_url := none,
    trust_score := 80, is_blacklisted := false, blacklist_end_date := none,
    blacklist_reason := none, created_at := 0, updated_at := 0 }

/-- A suspension form fixture. -/
def formW : BlacklistForm :=
  { is_blacklisted := true, blacklist_end_date := 1000, blacklist_reason := "late returns" }

/-- A one-student store fixture. -/
def dbW : DB := { students := [stuW], equipment := [], loans := [], blacklistEntries := [] }

/-- The stored record of `stuW` after the first suspension in `dbW`. -/
def stuW1 : Student :=
  { stuW with
    is_blacklisted := true
    blacklist_end_date := some 1000
    blacklist_reason := some "late returns"
    updated_at := 5
    trust_score := max 0 (stuW.trust_score * (1/2)) }

/-- Witness for C6 at a concrete input: suspending `stuW` twice in a row
halves the trust score exactly once. -/
theorem c6_suspension_penalty_once_witness :
    stuW.is_blacklisted = false ∧ formW.is_blacklisted = true ∧
    ((handleBlacklistSubmit dbW stuW formW "B1" 5).students.find? fun s =>
        decide (s.id = stuW.id)) = some stuW1 ∧
    ∀ s2 ∈ (handleBlacklistSubmit (handleBlacklistSubmit dbW stuW formW "B1" 5)
        stuW1 formW "B2" 6).students,
      s2.id = stuW.id → s2.trust_score = max 0 (stuW.trust_score * (1/2)) := by
  have hf : ((handleBlacklistSubmit dbW stuW formW "B1" 5).students.find? fun s =>
      decide (s.id = stuW.id)) = some stuW1 := rfl
  exact ⟨rfl, rfl, hf,
    c6_suspension_penalty_once.2 dbW stuW formW formW "B1" "B2" 5 6 stuW1 rfl rfl rfl hf⟩

/-- Membership in a key-preserving keyed map-update, at the updated key: the
record is the image of a stored record with that key. -/
theorem mem_map_update_key {α : Type} (key : α → String) (k : String) (f : α → α)
    (l : List α) (y : α) (hy : y ∈ l.map fun x => if key x = k then f x else x)
    (hyk : key y = k) :
    ∃ x ∈ l, key x = k ∧ y = f x := by
  obtain ⟨x, hx, hfx⟩ := List.mem_map.mp hy
  by_cases h : key x = k
  · exact ⟨x, hx, h, by rw [← hfx, if_pos h]⟩
  · rw [← hfx, if_neg h] at hyk
    exact absurd hyk h

/-- C7 counterexample: the claim says `ReturnLoan` on a missing loan id fails
with NotFound and leaves all state unchanged; `handleMarkReturned` on the
missing id `LX` raises no error, and still rewrites the student record —
`stuW`'s stored score 80 is replaced by the recomputed 50 (and `updated_at`
changes), so state is not left unchanged. -/
theorem c7_counterexample :
    dbW.loans.find? (fun l => decide (l.id = "LX")) = none ∧
    (handleMarkReturned dbW "LX" "S1" 5).loans = dbW.loans ∧
    (handleMarkReturned dbW "LX" "S1" 5).equipment = dbW.equipment ∧
    dbW.students.map Student.trust_score = [80] ∧
    (handleMarkReturned dbW "LX" "S1" 5).students.map Student.trust_score = [50] ∧
    (handleMarkReturned dbW "LX" "S1" 5).students ≠ dbW.students :=
  ⟨rfl, rfl, rfl, rfl, rfl, by decide⟩

/-- C7 (amended).  When no loan carries `loanId`, `handleMarkReturned`
completes without error, leaves the loans and equipment tables unchanged, but
still recomputes the student's trust score and persists it together with a new
`updated_at`.  When the loan exists, it sets `returned_at = now`,
`status = returned`, `is_overdue = false`, marks the loan's equipment
`available`, and persists the recomputed trust score. -/
theorem c7_return_loan :
    (∀ db loanId sid now, db.loans.find? (fun l => decide (l.id = loanId)) = none →
      (handleMarkReturned db loanId sid now).loans = db.loans ∧
      (handleMarkReturned db loanId sid now).equipment = db.equipment ∧
      ((handleMarkReturned db loanId sid now).students.find? fun s => decide (s.id = sid))
        = (db.students.find? fun s => decide (s.id = sid)).map
            (persistScore (calculateTrustScore db.loans sid) now)) ∧
    (∀ db loanId sid now L, db.loans.find? (fun l => decide (l.id = loanId)) = some L →
      (∀ l ∈ (handleMarkReturned db loanId sid now).loans, l.id = loanId →
        l.returned_at = some now ∧ l.status = .returned ∧ l.is_overdue = false) ∧
      (∀ e ∈ (handleMarkReturned db loanId sid now).equipment, e.id = L.equipment_id →
        e.status = .available ∧ e.updated_at = now) ∧
      ((handleMarkReturned db loanId sid now).students.find? fun s => decide (s.id = sid))
        = (db.students.find? fun s => decide (s.id = sid)).map
            (persistScore (calculateTrustScore (handleMarkReturned db loanId sid now).loans sid)
              now)) := by
  constructor
  · intro db loanId sid now hnone
    have hall : ∀ l ∈ db.loans, l.id ≠ loanId := by
      intro l hl
      have := List.find?_eq_none.mp hnone l hl
      simpa using this
    have hid : (db.loans.map fun l => if l.id = loanId then closeLoan now l else l) = db.loans :=
      map_update_id Loan.id loanId _ db.loans hall
    refine ⟨hid, ?_, ?_⟩
    · simp only [handleMarkReturned, hid, hnone]
    · simp only [handleMarkReturned, hid, hnone]
      exact find?_map_update Student.id sid
        (persistScore (calculateTrustScore db.loans sid) now) (fun s => rfl) db.students
  · intro db loanId sid now L hfind
    have hfind1 : ((db.loans.map fun l => if l.id = loanId then closeLoan now l else l).find?
        fun l => decide (l.id = loanId)) = some (closeLoan now L) := by
      rw [find?_map_update Loan.id loanId (closeLoan now) (fun l => rfl) db.loans, hfind]
      rfl
    refine ⟨?_, ?_, ?_⟩
    · intro l hl hlid
      obtain ⟨x, _, _, hx⟩ := mem_map_update_key Loan.id loanId _ db.loans l hl hlid
      rw [hx]
      exact ⟨rfl, rfl, rfl⟩
    · intro e he heid
      simp only [handleMarkReturned, hfind1] at he
      obtain ⟨x, _, _, hx⟩ := mem_map_update_key EquipmentItem.id L.equipment_id _
        db.equipment e he heid
      rw [hx]
      exact ⟨rfl, rfl⟩
    · simp only [handleMarkReturned, hfind1]
      exact find?_map_update Student.id sid
        (persistScore (calculateTrustScore ((handleMarkReturned db loanId sid now).loans) sid) now)
        (fun s => rfl) db.students

/-- A borrowed-equipment fixture. -/
def eqW : EquipmentItem :=
  { id := "E1", item_id := "BB-001", name := "Basketball", category := "Basketball",
    image_url := none, location := none, status := .borrowed, condition_notes := none,
    created_at := 0, updated_at := 0 }

/-- An open-loan fixture for `stuW` on `eqW`. -/
def loanW : Loan :=
  { id := "L1", student_id := "S1", equipment_id := "E1", borrowed_by_user_id := none,
    borrowed_at := 0, due_at := 60, returned_at := none, is_overdue := false,
    status := .active, created_at := 0 }

/-- A store fixture with one open loan. -/
def dbW2 : DB :=
  { students := [stuW], equipment := [eqW], loans := [loanW], blacklistEntries := [] }

/-- Witness for C7's amended theorem at concrete inputs: the missing-loan
branch leaves equipment untouched, and the existing-loan branch reverts the
loan's equipment to `available`. -/
theorem c7_return_loan_witness :
    (dbW.loans.find? (fun l => decide (l.id = "LX")) = none ∧
      (handleMarkReturned dbW "LX" "S1" 5).equipment = dbW.equipment) ∧
    (dbW2.loans.find? (fun l => decide (l.id = "L1")) = some loanW ∧
      ∀ e ∈ (handleMarkReturned dbW2 "L1" "S1" 5).equipment, e.id = loanW.equipment_id →
        e.status = .available ∧ e.updated_at = 5) :=
  ⟨⟨rfl, (c7_return_loan.1 dbW "LX" "S1" 5 rfl).2.1⟩,
   ⟨rfl, (c7_return_loan.2 dbW2 "L1" "S1" 5 loanW rfl).2.1⟩⟩

theorem returnedCount_eq_countP (loans : List Loan) (sid : String) :
    returnedCount loans sid = loans.countP (isReturnedLoanOf sid) :=
  (List.countP_eq_length_filter _ _).symm

theorem onTimeCount_eq_countP (loans : List Loan) (sid : String) :
    onTimeCount loans sid = loans.countP fun l => isOnTime l && isReturnedLoanOf sid l := by
  unfold onTimeCount
  rw [← List.countP_eq_length_filter, List.countP_filter]

/-- C9.  `handleDeleteLoan` hard-removes the loan; for an open loan it reverts
the equipment to `available` and persists a recomputed score equal to the score
computed before the deletion (an open loan contributes nothing to the ratio);
for a returned loan it leaves equipment untouched and persists the ratio with
the deleted loan removed from both the on-time and the returned count. -/
theorem c9_delete_loan :
    ∀ db loanId sid now L,
      (db.loans.map Loan.id).Nodup →
      db.loans.find? (fun l => decide (l.id = loanId)) = some L →
      L.student_id = sid →
      (∀ l ∈ (handleDeleteLoan db loanId sid now).loans, l.id ≠ loanId) ∧
      (handleDeleteLoan db loanId sid now).loans.length = db.loans.length - 1 ∧
      (L.returned_at = none →
        (∀ e ∈ (handleDeleteLoan db loanId sid now).equipment, e.id = L.equipment_id →
          e.status = .available ∧ e.updated_at = now) ∧
        calculateTrustScore (handleDeleteLoan db loanId sid now).loans sid
          = calculateTrustScore db.loans sid ∧
        ((handleDeleteLoan db loanId sid now).students.find? fun s => decide (s.id = sid))
          = (db.students.find? fun s => decide (s.id = sid)).map
              (persistScore (calculateTrustScore db.loans sid) now)) ∧
      (∀ r, L.returned_at = some r →
        (handleDeleteLoan db loanId sid now).equipment = db.equipment ∧
        returnedCount (handleDeleteLoan db loanId sid now).loans sid
          = returnedCount db.loans sid - 1 ∧
        onTimeCount (handleDeleteLoan db loanId sid now).loans sid
          = onTimeCount db.loans sid - (if r ≤ L.due_at then 1 else 0) ∧
        ((handleDeleteLoan db loanId sid now).students.find? fun s => decide (s.id = sid))
          = (db.students.find? fun s => decide (s.id = sid)).map
              (persistScore (trustFormula
                (onTimeCount db.loans sid - (if r ≤ L.due_at then 1 else 0))
                (returnedCount db.loans sid - 1)) now)) := by
  intro db loanId sid now L hnd hfind hsid
  have hmem : L ∈ db.loans := List.mem_of_find?_eq_some hfind
  have hkey : L.id = loanId := by simpa using List.find?_some hfind
  have hloans : (handleDeleteLoan db loanId sid now).loans
      = db.loans.filter fun l => !decide (l.id = loanId) := rfl
  have hcount : ∀ p : Loan → Bool,
      ((db.loans.filter fun l => !decide (l.id = loanId)).countP p)
        = db.loans.countP p - (if p L then 1 else 0) := fun p =>
    countP_filter_key_ne Loan.id loanId p db.loans hnd L hmem hkey
  refine ⟨?_, ?_, ?_, ?_⟩
  · intro l hl
    rw [hloans, List.mem_filter] at hl
    simpa using hl.2
  · rw [hloans]
    have h1 : (db.loans.filter fun l => !decide (l.id = loanId)).length
        = ((db.loans.filter fun l => !decide (l.id = loanId)).countP fun _ => true) := by
      simp [List.countP_true]
    rw [h1, hcount]
    simp [List.countP_true]
  · intro hopen
    have hequip : (handleDeleteLoan db loanId sid now).equipment
        = db.equipment.map fun e =>
            if e.id = L.equipment_id then markAvailable now e else e := by
      simp only [handleDeleteLoan, hfind, hopen, if_pos]
    have hret : returnedCount (handleDeleteLoan db loanId sid now).loans sid
        = returnedCount db.loans sid := by
      rw [hloans, returnedCount_eq_countP, returnedCount_eq_countP, hcount]
      simp [isReturnedLoanOf, hopen]
    have hon : onTimeCount (handleDeleteLoan db loanId sid now).loans sid
        = onTimeCount db.loans sid := by
      rw [hloans, onTimeCount_eq_countP, onTimeCount_eq_countP, hcount]
      simp [isOnTime, hopen]
    have hscore : calculateTrustScore (handleDeleteLoan db loanId sid now).loans sid
        = calculateTrustScore db.loans sid := by
      rw [calculateTrustScore_eq_trustFormula, calculateTrustScore_eq_trustFormula, hret, hon]
    refine ⟨?_, hscore, ?_⟩
    · intro e he heid
      rw [hequip] at he
      obtain ⟨x, _, _, hx⟩ := mem_map_update_key EquipmentItem.id L.equipment_id _
        db.equipment e he heid
      rw [hx]
      exact ⟨rfl, rfl⟩
    · have hgoal : (handleDeleteLoan db loanId sid now).students.find?
          (fun s => decide (s.id = sid))
          = (db.students.find? fun s => decide (s.id = sid)).map
              (persistScore
                (calculateTrustScore ((handleDeleteLoan db loanId sid now).loans) sid) now) :=
        find?_map_update Student.id sid
          (persistScore (calculateTrustScore ((handleDeleteLoan db loanId sid now).loans) sid)
            now) (fun s => rfl) db.students
      rw [hscore] at hgoal
      exact hgoal
  · intro r hr
    have hequip : (handleDeleteLoan db loanId sid now).equipment = db.equipment := by
      simp only [handleDeleteLoan, hfind, hr]
      rfl
    have hret : returnedCount (handleDeleteLoan db loanId sid now).loans sid
        = returnedCount db.loans sid - 1 := by
      rw [hloans, returnedCount_eq_countP, returnedCount_eq_countP, hcount]
      simp [isReturnedLoanOf, hr, hsid]
    have hon : onTimeCount (handleDeleteLoan db loanId sid now).loans sid
        = onTimeCount db.loans sid - (if r ≤ L.due_at then 1 else 0) := by
      rw [hloans, onTimeCount_eq_countP, onTimeCount_eq_countP, hcount]
      congr 1
      simp [isOnTime, isReturnedLoanOf, hr, hsid]
    have hscore : calculateTrustScore (handleDeleteLoan db loanId sid now).loans sid
        = trustFormula (onTimeCount db.loans sid - (if r ≤ L.due_at then 1 else 0))
            (returnedCount db.loans sid - 1) := by
      rw [calculateTrustScore_eq_trustFormula, hret, hon]
    refine ⟨hequip, hret, hon, ?_⟩
    have hgoal : (handleDeleteLoan db loanId sid now).students.find?
        (fun s => decide (s.id = sid))
        = (db.students.find? fun s => decide (s.id = sid)).map
            (persistScore
              (calculateTrustScore ((handleDeleteLoan db loanId sid now).loans) sid) now) :=
      find?_map_update Student.id sid
        (persistScore (calculateTrustScore ((handleDeleteLoan db loanId sid now).loans) sid)
          now) (fun s => rfl) db.students
    rw [hscore] at hgoal
    exact hgoal

/-- A returned-late loan fixture for `stuW` on `eqW`. -/
def loanR : Loan :=
  { id := "L2", student_id := "S1", equipment_id := "E1", borrowed_by_user_id := none,
    borrowed_at := 0, due_at := 60, returned_at := some 90, is_overdue := false,
    status := .returned, created_at := 0 }

/-- A store fixture with one open and one returned-late loan. -/
def dbW3 : DB :=
  { students := [stuW], equipment := [eqW], loans := [loanW, loanR], blacklistEntries := [] }

/-- Witness for C9 at a concrete input: deleting the returned loan `L2` leaves
equipment untouched and drops the returned count by one. -/
theorem c9_delete_loan_witness :
    ((dbW3.loans.map Loan.id).Nodup ∧
      dbW3.loans.find? (fun l => decide (l.id = "L2")) = some loanR ∧
      loanR.student_id = "S1" ∧ loanR.returned_at = some 90) ∧
    (handleDeleteLoan dbW3 "L2" "S1" 7).equipment = dbW3.equipment ∧
    returnedCount (handleDeleteLoan dbW3 "L2" "S1" 7).loans "S1"
      = returnedCount dbW3.loans "S1" - 1 := by
  have h := c9_delete_loan dbW3 "L2" "S1" 7 loanR (by decide) rfl rfl
  exact ⟨⟨by decide, rfl, rfl, rfl⟩, (h.2.2.2 90 rfl).1, (h.2.2.2 90 rfl).2.1⟩

/-- Number of active blacklist entries of one student. -/
def activeEntryCount (db : DB) (sid : String) : Nat :=
  db.blacklistEntries.countP fun e => decide (e.student_id = sid) && e.is_active

/-- The stored record of a currently suspended student. -/
def stuB : Student :=
  { stuW with
    is_blacklisted := true
    blacklist_end_date := some 1000
    blacklist_reason := some "late returns" }

/-- The active blacklist entry of `stuB`'s current suspension. -/
def entryB : BlacklistEntry :=
  { id := "B1", student_id := "S1", blacklisted_by_user_id := none, start_date := 0,
    end_date := 1000, reason := "late returns", is_active := true, created_at := 0 }

/-- A store fixture with one suspended student and one active entry. -/
def dbB : DB :=
  { students := [stuB], equipment := [], loans := [], blacklistEntries := [entryB] }

/-- C3.  The claim (and the data-model invariant of the specification) says at
most one `is_active` blacklist entry may exist per student; re-saving the
suspension of the already-suspended `stuB` (its blacklist toggle already on)
makes `handleBlacklistSubmit` append a second `is_active` entry without
deactivating the first, leaving two active entries for `S1`. -/
theorem c3_duplicate_active_entries :
    stuB.is_blacklisted = true ∧ formW.is_blacklisted = true ∧
    activeEntryCount dbB "S1" = 1 ∧
    activeEntryCount (handleBlacklistSubmit dbB stuB formW "B2" 5) "S1" = 2 :=
  ⟨rfl, rfl, rfl, rfl⟩

/-- C10.  The lazy-expiry pass rewrites only the expired students' blacklist
fields: blacklist entries (in particular their `is_active` flags), loans and
equipment are untouched, student identity and trust scores survive, non-expired
student records survive verbatim, and — because the just-expired entry is
still `is_active` — the most-recent-inactive-entry lookup of the same pass is
unchanged by the expiry, falling back to the epoch when the student has no
inactive entry at all. -/
theorem c10_lazy_expiry_frame :
    ∀ db now,
      (lazyExpire db now).blacklistEntries = db.blacklistEntries ∧
      (lazyExpire db now).loans = db.loans ∧
      (lazyExpire db now).equipment = db.equipment ∧
      ((lazyExpire db now).students.map fun s => (s.id, s.student_id, s.full_name, s.trust_score))
        = (db.students.map fun s => (s.id, s.student_id, s.full_name, s.trust_score)) ∧
      (∀ s ∈ db.students, expiredBlacklist now s = false → s ∈ (lazyExpire db now).students) ∧
      (∀ sid, lastSuspensionEnd (lazyExpire db now).blacklistEntries sid
          = lastSuspensionEnd db.blacklistEntries sid) ∧
      (∀ sid, atRiskFlag (lazyExpire db now) sid = atRiskFlag db sid) ∧
      (∀ sid, (∀ e ∈ db.blacklistEntries, e.student_id = sid → e.is_active = true) →
          lastSuspensionEnd db.blacklistEntries sid = 0) := by
  intro db now
  refine ⟨rfl, rfl, rfl, ?_, ?_, fun sid => rfl, fun sid => rfl, ?_⟩
  · simp only [lazyExpire, List.map_map]
    refine List.map_eq_map_iff.mpr fun s _ => ?_
    by_cases h : expiredBlacklist now s = true <;> simp [h]
  · intro s hs h
    refine List.mem_map.mpr ⟨s, hs, ?_⟩
    simp [h]
  · intro sid hall
    unfold lastSuspensionEnd
    have hnil : ((studentEntries db.blacklistEntries sid).filter
        fun e => e.is_active = false) = [] := by
      rw [List.filter_eq_nil_iff]
      intro e he
      have hmem := List.mem_filter.mp he
      have := hall e hmem.1 (by simpa using hmem.2)
      simp [this]
    rw [hnil]
    rfl

/-- Witness for C10 at concrete inputs: in `dbB` (one active entry, suspension
expired by time 2000) the pass keeps the entry table and uses the epoch as
cutoff; the non-expired `stuW` of `dbW` survives verbatim. -/
theorem c10_lazy_expiry_frame_witness :
    (lazyExpire dbB 2000).blacklistEntries = dbB.blacklistEntries ∧
    (∀ e ∈ dbB.blacklistEntries, e.student_id = "S1" → e.is_active = true) ∧
    lastSuspensionEnd dbB.blacklistEntries "S1" = 0 ∧
    expiredBlacklist 2000 stuW = false ∧
    stuW ∈ (lazyExpire dbW 2000).students := by
  have h := c10_lazy_expiry_frame dbB 2000
  have h2 := c10_lazy_expiry_frame dbW 2000
  exact ⟨h.1, by decide, h.2.2.2.2.2.2.2 "S1" (by decide), rfl,
    h2.2.2.2.2.1 stuW (by decide) rfl⟩

/-- The since-last-suspension cutoff as the claim words it: the largest
`end_date` among the student's inactive entries, starting from the epoch. -/
def specCutoff (db : DB) (sid : String) : Timestamp :=
  ((db.blacklistEntries.filter fun e => decide (e.student_id = sid) && !e.is_active).map
    (·.end_date)).foldl max 0

/-- The late-return count as the claim words it: returned loans of the student
with `returned_at > due_at` and `returned_at` past the cutoff. -/
def specLateCount (db : DB) (sid : String) : Nat :=
  db.loans.countP fun l =>
    decide (l.student_id = sid) &&
      match l.returned_at with
      | some r => decide (l.due_at < r ∧ specCutoff db sid < r)
      | none => false

/-- The warning threshold as the claim words it: 1 when any blacklist entry
was ever created for the student, 3 otherwise. -/
def specThreshold (db : DB) (sid : String) : Nat :=
  if ∃ e ∈ db.blacklistEntries, e.student_id = sid then 1 else 3

/-- The at-risk condition as the claim words it. -/
def specAtRisk (db : DB) (sid : String) : Prop :=
  specThreshold db sid ≤ specLateCount db sid

/-- Seeding a maximum fold with the head equals folding from the epoch, for
non-negative values. -/
theorem foldl_max_from_zero (ds : List Int) (h : ∀ d ∈ ds, 0 ≤ d) :
    maxFromHead ds = ds.foldl max 0 := by
  cases ds with
  | nil => rfl
  | cons d t =>
    simp only [maxFromHead, List.foldl_cons]
    rw [max_eq_right (h d (List.mem_cons_self d t))]

theorem lastSuspensionEnd_eq_specCutoff (db : DB) (sid : String)
    (hpos : ∀ e ∈ db.blacklistEntries, 0 ≤ e.end_date) :
    lastSuspensionEnd db.blacklistEntries sid = specCutoff db sid := by
  unfold lastSuspensionEnd specCutoff studentEntries
  have hfeq : ((db.blacklistEntries.filter fun e => decide (e.student_id = sid)).filter
        fun e => e.is_active = false)
      = db.blacklistEntries.filter fun e => decide (e.student_id = sid) && !e.is_active := by
    rw [List.filter_filter]
    exact List.filter_congr fun e _ => by cases h : e.is_active <;> simp [h]
  rw [hfeq]
  apply foldl_max_from_zero
  intro d hd
  obtain ⟨e, he, rfl⟩ := List.mem_map.mp hd
  exact hpos e (List.mem_filter.mp he).1

theorem warningThreshold_eq_specThreshold (db : DB) (sid : String) :
    warningThreshold db sid = specThreshold db sid := by
  have hiff : 0 < suspensionCount db sid ↔ ∃ e ∈ db.blacklistEntries, e.student_id = sid := by
    unfold suspensionCount studentEntries
    rw [← List.countP_eq_length_filter, List.countP_pos_iff]
    simp
  unfold warningThreshold specThreshold
  exact if_congr hiff rfl rfl

theorem lateReturns_eq_specLateCount (db : DB) (sid : String)
    (hpos : ∀ e ∈ db.blacklistEntries, 0 ≤ e.end_date) :
    lateReturnsSinceLastSuspension db sid = specLateCount db sid := by
  unfold lateReturnsSinceLastSuspension specLateCount studentLoans
  rw [lastSuspensionEnd_eq_specCutoff db sid hpos, ← List.countP_eq_length_filter,
    List.countP_filter]
  refine List.countP_congr fun l _ => ?_
  cases hr : l.returned_at with
  | none => simp
  | some r => simp [Bool.decide_and, Bool.and_comm]

/-- Three late-return loan fixtures for the scenario checks. -/
def lateLoan (i : String) (rAt : Timestamp) : Loan :=
  { id := i, student_id := "S1", equipment_id := "E1", borrowed_by_user_id := none,
    borrowed_at := 0, due_at := 60, returned_at := some rAt, is_overdue := false,
    status := .returned, created_at := 0 }

/-- First-offender fixture: no suspension history, two late returns. -/
def dbLate2 : DB :=
  { students := [stuW], equipment := [eqW],
    loans := [lateLoan "L1" 90, lateLoan "L2" 95], blacklistEntries := [] }

/-- First-offender fixture: no suspension history, three late returns. -/
def dbLate3 : DB :=
  { students := [stuW], equipment := [eqW],
    loans := [lateLoan "L1" 90, lateLoan "L2" 95, lateLoan "L3" 99], blacklistEntries := [] }

/-- One closed suspension (ended at 100) for `S1`. -/
def entryClosed : BlacklistEntry :=
  { id := "B1", student_id := "S1", blacklisted_by_user_id := none, start_date := 0,
    end_date := 100, reason := "late returns", is_active := false, created_at := 0 }

/-- Repeat-offender fixture: one closed suspension and one late return after
its end date. -/
def dbRepeat : DB :=
  { students := [stuW], equipment := [eqW],
    loans := [lateLoan "L1" 200], blacklistEntries := [entryClosed] }

/-- C8.  The at-risk evaluator flags a student iff the count of returned loans
that are late and past the most recent inactive entry's `end_date` (epoch when
none) reaches the threshold — 1 with any suspension history, 3 without; a
first offender with 2 late returns is not flagged, with 3 is flagged, and one
closed suspension plus 1 late return since its end is flagged. -/
theorem c8_at_risk_rule :
    (∀ db sid, (∀ e ∈ db.blacklistEntries, 0 ≤ e.end_date) →
      (atRiskFlag db sid = true ↔ specAtRisk db sid)) ∧
    atRiskFlag dbLate2 "S1" = false ∧
    atRiskFlag dbLate3 "S1" = true ∧
    atRiskFlag dbRepeat "S1" = true := by
  refine ⟨fun db sid hpos => ?_, by decide, by decide, by decide⟩
  unfold atRiskFlag specAtRisk
  rw [warningThreshold_eq_specThreshold, lateReturns_eq_specLateCount db sid hpos]
  simp

/-- Witness for C8's equivalence at a concrete input: the repeat-offender
store has non-negative entry end dates, and flag and reference rule agree. -/
theorem c8_at_risk_rule_witness :
    (∀ e ∈ dbRepeat.blacklistEntries, 0 ≤ e.end_date) ∧
    (atRiskFlag dbRepeat "S1" = true ↔ specAtRisk dbRepeat "S1") :=
  ⟨by decide, c8_at_risk_rule.1 dbRepeat "S1" (by decide)⟩

/-- The open-loan test for one equipment id (`returned_at == null` and the
loan references the item). -/
def isOpenFor (eqId : String) (l : Loan) : Bool :=
  decide (l.equipment_id = eqId) && l.returned_at.isNone

/-- Number of open loans referencing one equipment id. -/
def openLoanCount (loans : List Loan) (eqId : String) : Nat :=
  loans.countP (isOpenFor eqId)

/-- The claimed consistency: an item is `borrowed` iff exactly one open loan
references it. -/
def equipLoanConsistent (db : DB) : Prop :=
  ∀ e ∈ db.equipment, (e.status = .borrowed ↔ openLoanCount db.loans e.id = 1)

/-- The specification's full equipment/loan invariant: the claimed
biconditional together with `status available` (or any non-borrowed status)
implying no open loan references the item. -/
def equipLoanInv (db : DB) : Prop :=
  ∀ e ∈ db.equipment, (e.status = .borrowed ↔ openLoanCount db.loans e.id = 1) ∧
    (e.status ≠ .borrowed → openLoanCount db.loans e.id = 0)

/-- An equipment form whose status dropdown is set to `borrowed`. -/
def formBorrowed : EquipmentForm :=
  { item_id := "BB-002", name := "Basketball 2", category := "Basketball",
    status := .borrowed, condition_notes := "" }

/-- C1 counterexample: the claim says the consistency invariant is preserved
by every operation including manual equipment create/edit, but
`AdminInventory.handleSubmit` accepts any status from the form: creating an
item with status `borrowed` (and an image, so the create guard passes) in an
empty (hence consistent) store yields an item marked `borrowed` with no loan
referencing it. -/
theorem c1_counterexample :
    equipLoanConsistent dbEmpty ∧
    ¬ equipLoanConsistent
        (equipmentSubmit dbEmpty none formBorrowed "E9" (some "ball.png") 0) := by
  constructor
  · intro e he
    cases he
  · unfold equipLoanConsistent
    decide

theorem openLoanCount_borrowStep (sid : String) (uid : Option String) (bAt dAt : Timestamp)
    (db : DB) (it : BorrowItem) (y : String) :
    openLoanCount (borrowStep sid uid bAt dAt db it).loans y
      = openLoanCount db.loans y + (if it.equipmentId = y then 1 else 0) := by
  by_cases hy : it.equipmentId = y <;>
    simp [borrowStep, markBorrowedWrite, addLoanWrite, openLoanCount, isOpenFor,
      List.countP_append, List.countP_cons, hy]

theorem borrowStep_inv (sid : String) (uid : Option String) (bAt dAt : Timestamp)
    (db : DB) (it : BorrowItem)
    (hinv : equipLoanInv db)
    (havail : ∀ e ∈ db.equipment, e.id = it.equipmentId → e.status = .available) :
    equipLoanInv (borrowStep sid uid bAt dAt db it) := by
  intro e he
  have hcnt := openLoanCount_borrowStep sid uid bAt dAt db it
  have hequip : (borrowStep sid uid bAt dAt db it).equipment
      = db.equipment.map fun x =>
          if x.id = it.equipmentId then { x with status := .borrowed, updated_at := bAt }
          else x := rfl
  rw [hequip] at he
  obtain ⟨x, hx, hfx⟩ := List.mem_map.mp he
  by_cases h : x.id = it.equipmentId
  · have hav : x.status = .available := havail x hx h
    have hzero : openLoanCount db.loans x.id = 0 :=
      (hinv x hx).2 (by simp [hav])
    have h1 : openLoanCount (borrowStep sid uid bAt dAt db it).loans x.id = 1 := by
      rw [hcnt x.id, hzero, if_pos h.symm]
    rw [← hfx, if_pos h]
    exact ⟨⟨fun _ => h1, fun _ => rfl⟩, fun hne => absurd rfl hne⟩
  · have heq : openLoanCount (borrowStep sid uid bAt dAt db it).loans x.id
        = openLoanCount db.loans x.id := by
      rw [hcnt x.id, if_neg fun hc => h hc.symm]
      omega
    rw [← hfx, if_neg h]
    simp only [heq]
    exact hinv x hx

theorem foldl_borrow_inv (sid : String) (uid : Option String) (bAt dAt : Timestamp) :
    ∀ (items : List BorrowItem) (db : DB),
      equipLoanInv db →
      (items.map BorrowItem.equipmentId).Nodup →
      (∀ it ∈ items, ∀ e ∈ db.equipment, e.id = it.equipmentId → e.status = .available) →
      equipLoanInv (items.foldl (borrowStep sid uid bAt dAt) db) := by
  intro items
  induction items with
  | nil => exact fun db hinv _ _ => hinv
  | cons it rest ih =>
    intro db hinv hnd havail
    rw [List.foldl_cons]
    rw [List.map_cons, List.nodup_cons] at hnd
    apply ih
    · exact borrowStep_inv sid uid bAt dAt db it hinv
        (havail it (List.mem_cons_self it rest))
    · exact hnd.2
    · intro it2 h2 e he heid
      have hne : it2.equipmentId ≠ it.equipmentId := fun hcontra =>
        hnd.1 (hcontra ▸ List.mem_map_of_mem BorrowItem.equipmentId h2)
      obtain ⟨x, hx, hfx⟩ := List.mem_map.mp he
      by_cases h : x.id = it.equipmentId
      · exfalso
        apply hne
        rw [← hfx, if_pos h] at heid
        have hxid : x.id = it2.equipmentId := heid
        exact hxid.symm.trans h
      · rw [← hfx, if_neg h] at heid ⊢
        exact havail it2 (List.mem_cons_of_mem it h2) x hx heid

theorem openLoanCount_closeLoan (db : DB) (loanId : String) (now : Timestamp) (L : Loan)
    (hnd : (db.loans.map Loan.id).Nodup) (hmem : L ∈ db.loans) (hkey : L.id = loanId)
    (hopen : L.returned_at = none) (y : String) :
    openLoanCount (db.loans.map fun l => if l.id = loanId then closeLoan now l else l) y
      = openLoanCount db.loans y - (if L.equipment_id = y then 1 else 0) := by
  unfold openLoanCount
  rw [countP_map_update Loan.id loanId (closeLoan now) (isOpenFor y) db.loans hnd L hmem hkey]
  have h1 : isOpenFor y (closeLoan now L) = false := by simp [isOpenFor, closeLoan]
  rw [h1]
  have h2 : isOpenFor y L = decide (L.equipment_id = y) := by simp [isOpenFor, hopen]
  rw [h2]
  by_cases hy : L.equipment_id = y <;> simp [hy]

/-- Closing one open loan and reverting its equipment to `available` preserves
the equipment/loan invariant. -/
theorem inv_after_close (db db2 : DB) (L : Loan) (now : Timestamp)
    (hmem : L ∈ db.loans) (hopen : L.returned_at = none) (hinv : equipLoanInv db)
    (hequip : db2.equipment = db.equipment.map fun x =>
        if x.id = L.equipment_id then markAvailable now x else x)
    (hcnt : ∀ y, openLoanCount db2.loans y
        = openLoanCount db.loans y - (if L.equipment_id = y then 1 else 0)) :
    equipLoanInv db2 := by
  intro e he
  rw [hequip] at he
  obtain ⟨x, hx, hfx⟩ := List.mem_map.mp he
  by_cases h : x.id = L.equipment_id
  · have hLopen : isOpenFor x.id L = true := by simp [isOpenFor, hopen, h]
    have hpos : 0 < openLoanCount db.loans x.id := List.countP_pos_iff.mpr ⟨L, hmem, hLopen⟩
    have hxb : x.status = .borrowed := by
      by_contra hnb
      have h0 := (hinv x hx).2 hnb
      omega
    have hone : openLoanCount db.loans x.id = 1 := (hinv x hx).1.mp hxb
    have hcnt0 : openLoanCount db2.loans x.id = 0 := by
      rw [hcnt x.id, hone, if_pos h.symm]
    have hcnt0m : openLoanCount db2.loans (markAvailable now x).id = 0 := hcnt0
    rw [← hfx, if_pos h]
    refine ⟨⟨fun hb => absurd hb ?_, fun hc => ?_⟩, fun _ => hcnt0m⟩
    · simp [markAvailable]
    · rw [hcnt0m] at hc
      exact absurd hc (by decide)
  · have hcnteq : openLoanCount db2.loans x.id = openLoanCount db.loans x.id := by
      rw [hcnt x.id, if_neg fun hc => h hc.symm]
      omega
    rw [← hfx, if_neg h]
    simp only [hcnteq]
    exact hinv x hx

theorem handleMarkReturned_inv (db : DB) (loanId sid : String) (now : Timestamp) (L : Loan)
    (hnd : (db.loans.map Loan.id).Nodup)
    (hfind : db.loans.find? (fun l => decide (l.id = loanId)) = some L)
    (hopen : L.returned_at = none)
    (hinv : equipLoanInv db) :
    equipLoanInv (handleMarkReturned db loanId sid now) := by
  have hmem := List.mem_of_find?_eq_some hfind
  have hkey : L.id = loanId := by simpa using List.find?_some hfind
  have hfind1 : ((db.loans.map fun l => if l.id = loanId then closeLoan now l else l).find?
      fun l => decide (l.id = loanId)) = some (closeLoan now L) := by
    rw [find?_map_update Loan.id loanId (closeLoan now) (fun l => rfl) db.loans, hfind]
    rfl
  refine inv_after_close db _ L now hmem hopen hinv ?_ ?_
  · simp only [handleMarkReturned, hfind1]
    rfl
  · intro y
    exact openLoanCount_closeLoan db loanId now L hnd hmem hkey hopen y

theorem handleDeleteLoan_inv (db : DB) (loanId sid : String) (now : Timestamp)
    (hnd : (db.loans.map Loan.id).Nodup) (hinv : equipLoanInv db) :
    equipLoanInv (handleDeleteLoan db loanId sid now) := by
  have hloans : (handleDeleteLoan db loanId sid now).loans
      = db.loans.filter fun l => !decide (l.id = loanId) := rfl
  cases hfind : db.loans.find? (fun l => decide (l.id = loanId)) with
  | none =>
    have hsame : (db.loans.filter fun l => !decide (l.id = loanId)) = db.loans :=
      List.filter_eq_self.mpr fun l hl => by
        simpa using List.find?_eq_none.mp hfind l hl
    have hequip : (handleDeleteLoan db loanId sid now).equipment = db.equipment := by
      simp only [handleDeleteLoan, hfind]
    intro e he
    rw [hequip] at he
    have hcnteq : openLoanCount (handleDeleteLoan db loanId sid now).loans e.id
        = openLoanCount db.loans e.id := by
      rw [hloans, hsame]
    simp only [hcnteq]
    exact hinv e he
  | some L =>
    have hmem := List.mem_of_find?_eq_some hfind
    have hkey : L.id = loanId := by simpa using List.find?_some hfind
    have hcnt : ∀ y, openLoanCount (db.loans.filter fun l => !decide (l.id = loanId)) y
        = openLoanCount db.loans y - (if isOpenFor y L then 1 else 0) := fun y =>
      countP_filter_key_ne Loan.id loanId (isOpenFor y) db.loans hnd L hmem hkey
    cases hro : L.returned_at with
    | some r =>
      have hequip : (handleDeleteLoan db loanId sid now).equipment = db.equipment := by
        simp [handleDeleteLoan, hfind, hro]
      intro e he
      rw [hequip] at he
      have hcnteq : openLoanCount (handleDeleteLoan db loanId sid now).loans e.id
          = openLoanCount db.loans e.id := by
        rw [hloans, hcnt e.id]
        have h0 : isOpenFor e.id L = false := by simp [isOpenFor, hro]
        rw [h0]
        simp
      simp only [hcnteq]
      exact hinv e he
    | none =>
      refine inv_after_close db _ L now hmem hro hinv ?_ ?_
      · simp [handleDeleteLoan, hfind, hro]
      · intro y
        rw [hloans, hcnt y]
        have h2 : isOpenFor y L = decide (L.equipment_id = y) := by simp [isOpenFor, hro]
        rw [h2]
        by_cases hy : L.equipment_id = y <;> simp [hy]

/-- C1 (amended).  Under the specification's full invariant — `borrowed` iff
exactly one open loan, and non-borrowed implies no open loan — loan creation
over pairwise-distinct, currently-available equipment ids, loan return of an
existing open loan, and loan deletion all preserve the invariant (and the
invariant entails the claimed biconditional); suspension management never
touches equipment or loans.  Manual equipment create/edit does NOT preserve it
(see the counterexample). -/
theorem c1_equipment_loan_invariant :
    (∀ db, equipLoanInv db → equipLoanConsistent db) ∧
    (∀ db sid uid items dur now, equipLoanInv db →
      (items.map BorrowItem.equipmentId).Nodup →
      (∀ it ∈ items, ∀ e ∈ db.equipment, e.id = it.equipmentId → e.status = .available) →
      equipLoanInv (handleConfirm db sid uid items dur now)) ∧
    (∀ db loanId sid now L, (db.loans.map Loan.id).Nodup →
      db.loans.find? (fun l => decide (l.id = loanId)) = some L → L.returned_at = none →
      equipLoanInv db → equipLoanInv (handleMarkReturned db loanId sid now)) ∧
    (∀ db loanId sid now, (db.loans.map Loan.id).Nodup →
      equipLoanInv db → equipLoanInv (handleDeleteLoan db loanId sid now)) ∧
    (∀ db sel form eId now,
      equipLoanInv (handleBlacklistSubmit db sel form eId now) ↔ equipLoanInv db) :=
  ⟨fun _ h e he => (h e he).1,
   fun db sid uid items dur now hinv hnd hav =>
     foldl_borrow_inv sid uid now (now + dur * 60000) items db hinv hnd hav,
   fun db loanId sid now L hnd hfind hopen hinv =>
     handleMarkReturned_inv db loanId sid now L hnd hfind hopen hinv,
   fun db loanId sid now hnd hinv => handleDeleteLoan_inv db loanId sid now hnd hinv,
   fun _ _ _ _ _ => Iff.rfl⟩

/-- An available-equipment fixture sharing `eqW`'s identity. -/
def eqA : EquipmentItem := { eqW with status := .available }

/-- A store fixture with one available item and no loans. -/
def dbAvail : DB :=
  { students := [stuW], equipment := [eqA], loans := [], blacklistEntries := [] }

/-- Witness for C1's amended theorem at concrete inputs: borrowing the
available `E1` and returning or deleting the open loan of `dbW2` all preserve
the invariant. -/
theorem c1_equipment_loan_invariant_witness :
    equipLoanInv dbAvail ∧
    equipLoanInv (handleConfirm dbAvail "S1" none [⟨"L1", "E1"⟩] 60 0) ∧
    equipLoanInv dbW2 ∧
    equipLoanInv (handleMarkReturned dbW2 "L1" "S1" 5) ∧
    equipLoanInv (handleDeleteLoan dbW2 "L1" "S1" 5) := by
  have h1 : equipLoanInv dbAvail := by
    unfold equipLoanInv
    decide
  have h2 : equipLoanInv dbW2 := by
    unfold equipLoanInv
    decide
  refine ⟨h1, ?_, h2, ?_, ?_⟩
  · exact c1_equipment_loan_invariant.2.1 dbAvail "S1" none [⟨"L1", "E1"⟩] 60 0 h1
      (by decide) (by decide)
  · exact c1_equipment_loan_invariant.2.2.1 dbW2 "L1" "S1" 5 loanW (by decide) rfl rfl h2
  · exact c1_equipment_loan_invariant.2.2.2.1 dbW2 "L1" "S1" 5 (by decide) h2

/-- A Dexie unit of work: each list element is one atomic transaction, run in
order.  The states between elements are observable — a failure partway through
leaves exactly a prefix applied. -/
def runScript (txns : List (DB → DB)) (db : DB) : DB :=
  txns.foldl (fun d f => f d) db

/-- The write sequence of `BorrowFlow.handleConfirm`: for each item the loan
`add` and the equipment `update` are two separately awaited writes — the
source has no `db.transaction` wrapper around them. -/
def borrowScript (sid : String) (uid : Option String) (items : List BorrowItem)
    (bAt dAt : Timestamp) : List (DB → DB) :=
  items.flatMap fun it => [addLoanWrite sid uid bAt dAt it, markBorrowedWrite bAt it]

/-- The write sequence of `handleMarkReturned`: three separately awaited
writes (loan update; equipment update after re-reading the loan; student
update), again with no transaction wrapper. -/
def returnScript (loanId sid : String) (now : Timestamp) : List (DB → DB) :=
  [fun db => { db with loans := db.loans.map fun l =>
      if l.id = loanId then closeLoan now l else l },
   fun db =>
     match db.loans.find? (fun l => decide (l.id = loanId)) with
     | some loan => { db with equipment := db.equipment.map fun e =>
         if e.id = loan.equipment_id then markAvailable now e else e }
     | none => db,
   fun db => { db with students := db.students.map fun s =>
       if s.id = sid then persistScore (calculateTrustScore db.loans sid) now s else s }]

/-- The write sequence of `handleBlacklistSubmit`: the source wraps every
write of the operation in a single `db.transaction`, so the script is one
atomic unit. -/
def blacklistScript (sel : Student) (form : BlacklistForm) (entryId : String)
    (now : Timestamp) : List (DB → DB) :=
  [fun db => handleBlacklistSubmit db sel form entryId now]

theorem runScript_borrowScript (sid : String) (uid : Option String) (bAt dAt : Timestamp) :
    ∀ (items : List BorrowItem) (db : DB),
      runScript (borrowScript sid uid items bAt dAt) db
        = items.foldl (borrowStep sid uid bAt dAt) db := by
  intro items
  induction items with
  | nil => exact fun db => rfl
  | cons it rest ih =>
    intro db
    have h1 : runScript (borrowScript sid uid (it :: rest) bAt dAt) db
        = runScript (borrowScript sid uid rest bAt dAt) (borrowStep sid uid bAt dAt db it) :=
      rfl
    rw [h1, ih, List.foldl_cons]

theorem borrowScript_length (sid : String) (uid : Option String) (bAt dAt : Timestamp) :
    ∀ items : List BorrowItem, (borrowScript sid uid items bAt dAt).length = 2 * items.length := by
  intro items
  induction items with
  | nil => rfl
  | cons it rest ih =>
    simp only [borrowScript, List.flatMap_cons] at ih ⊢
    simp only [List.length_append, List.length_cons, ih]
    simp [Nat.mul_succ]
    omega

/-- C2 counterexample: the claim says every multi-entity mutation runs inside
the store's atomic transaction primitive, leaving no observable partial state.
Loan creation is two separate writes; after the first (the loan insert) the
observable state has an open loan for `E1` while `E1` is still `available` —
the equipment/loan invariant is broken partway, and restored only by the
second write. -/
theorem c2_counterexample :
    (borrowScript "S1" none [⟨"L1", "E1"⟩] 0 3600000).length = 2 ∧
    equipLoanInv dbAvail ∧
    ¬ equipLoanInv (runScript ((borrowScript "S1" none [⟨"L1", "E1"⟩] 0 3600000).take 1) dbAvail) ∧
    equipLoanInv (runScript (borrowScript "S1" none [⟨"L1", "E1"⟩] 0 3600000) dbAvail) := by
  refine ⟨rfl, ?_, ?_, ?_⟩ <;> unfold equipLoanInv <;> decide

theorem runScript_returnScript (loanId sid : String) (now : Timestamp) (db : DB) :
    runScript (returnScript loanId sid now) db = handleMarkReturned db loanId sid now := by
  unfold runScript returnScript handleMarkReturned
  simp only [List.foldl_cons, List.foldl_nil]
  cases hf : (db.loans.map fun l => if l.id = loanId then closeLoan now l else l).find?
      (fun l => decide (l.id = loanId)) with
  | none => simp [hf]
  | some loan => simp [hf]

/-- C2 (amended).  Only the suspension mutation is one atomic transaction:
`handleBlacklistSubmit`'s script has a single unit containing all its writes,
while loan creation runs as two separate writes per item and loan return as
three separate writes, in the order of the source; each script's full run
produces the handler's final state, but their intermediate states are
observable (see the counterexample for a partial state violating the
equipment/loan invariant). -/
theorem c2_transaction_boundaries :
    (∀ sid uid items dur now (db : DB),
      runScript (borrowScript sid uid items now (now + dur * 60000)) db
        = handleConfirm db sid uid items dur now) ∧
    (∀ sid uid items bAt dAt,
      (borrowScript sid uid items bAt dAt).length = 2 * items.length) ∧
    (∀ loanId sid now (db : DB),
      runScript (returnScript loanId sid now) db = handleMarkReturned db loanId sid now) ∧
    (∀ loanId sid now, (returnScript loanId sid now).length = 3) ∧
    (∀ sel form eId now (db : DB),
      runScript (blacklistScript sel form eId now) db
        = handleBlacklistSubmit db sel form eId now) ∧
    (∀ sel form eId now, (blacklistScript sel form eId now).length = 1) :=
  ⟨fun sid uid items dur now db => runScript_borrowScript sid uid now (now + dur * 60000) items db,
   fun sid uid items bAt dAt => borrowScript_length sid uid bAt dAt items,
   fun loanId sid now db => runScript_returnScript loanId sid now db,
   fun _ _ _ => rfl, fun _ _ _ _ _ => rfl, fun _ _ _ _ => rfl⟩
